import Mathlib

/-!
Shallow embedding of the plotting helpers of src/plot.py: mid, circles and
compare.  Machine floats are modelled as rationals; a possibly-NaN numpy
value is an Option ℚ with none standing for NaN (any order comparison with
NaN is false, which binTest reproduces).  The module imports only
numpy as np and matplotlib.pyplot as plt.
-/

attribute [local semireducible] Rat.add Rat.sub Rat.mul Rat.inv

namespace Plot

/-- Decidable equality of Except results, for evaluating the model on
concrete inputs. -/
instance instDecEqExcept {ε α : Type} [DecidableEq ε] [DecidableEq α] :
    DecidableEq (Except ε α) := fun a b =>
  match a, b with
  | .error e, .error f =>
    if h : e = f then .isTrue (congrArg Except.error h)
    else .isFalse (fun hc => h (Except.error.inj hc))
  | .error _, .ok _ => .isFalse (fun hc => Except.noConfusion hc)
  | .ok _, .error _ => .isFalse (fun hc => Except.noConfusion hc)
  | .ok a, .ok b =>
    if h : a = b then .isTrue (congrArg Except.ok h)
    else .isFalse (fun hc => h (Except.ok.inj hc))

/-- A numpy 1-D array of possibly-NaN floats: none models NaN. -/
abbrev NArr := List (Option ℚ)

/-- mid (lines 6-8): (x[1:] + x[:-1]) / 2.  Element i of the zip of x with
its tail is the pair (x i, x (i+1)); x[1:] contributes the second component
and x[:-1] the first. -/
def mid (x : List ℚ) : List ℚ :=
  (x.zip x.tail).map (fun p => (p.2 + p.1) / 2)

/-- A scalar-or-array argument of circles, as dispatched by np.isscalar. -/
inductive SV where
  | scalar : ℚ → SV
  | vec : List ℚ → SV
deriving DecidableEq

/-- One matplotlib Circle patch: center and radius in data units. -/
structure Circ where
  cx : ℚ
  cy : ℚ
  r : ℚ
deriving DecidableEq

/-- circles, patch construction (lines 68-73).  The scalar-x branch hands y
and s to Circle directly, so it needs them scalar (a sequence there is a
malformed center or radius, rejected by the host library: none); the other
two branches iterate zip(x, y) or zip(x, y, s), and a scalar y there is not
iterable (a TypeError: none).  Python zip truncates to the shortest input,
as List.zip does. -/
def circlesPatches (x y s : SV) : Option (List Circ) :=
  match x with
  | .scalar a =>
    match y, s with
    | .scalar b, .scalar r => some [⟨a, b, r⟩]
    | _, _ => none
  | .vec xs =>
    match s, y with
    | .scalar r, .vec ys => some ((xs.zip ys).map (fun p => ⟨p.1, p.2, r⟩))
    | .scalar _, .scalar _ => none
    | .vec ss, .vec ys =>
        some ((xs.zip (ys.zip ss)).map (fun p => ⟨p.1, p.2.1, p.2.2⟩))
    | .vec _, .scalar _ => none

/-- The c argument of circles: a single color token or a sequence of numeric
values to be color-mapped. -/
inductive ColorArg where
  | token : String → ColorArg
  | values : List ℚ → ColorArg
deriving DecidableEq

/-- The color-related observable state of the returned PatchCollection:
the uniform color kwarg, the set_array value array, and the set_clim
normalization limits (none when set_clim was never called). -/
structure Collection where
  color : Option String
  array : Option (List ℚ)
  clim : Option (Option ℚ × Option ℚ)
deriving DecidableEq

/-- circles, color resolution (lines 62-65): color is the token itself when
c is a string, else None. -/
def colorOf : ColorArg → Option String
  | .token s => some s
  | .values _ => none

/-- circles, collection colouring (lines 66, 74-79): the color kwarg is
always passed; when it is None the value sequence is attached with
set_array, and set_clim(vmin, vmax) is called iff vmin or vmax was
supplied. -/
def makeCollection (c : ColorArg) (vmin vmax : Option ℚ) : Collection :=
  match colorOf c with
  | some s => ⟨some s, none, none⟩
  | none =>
    let vals := match c with | .token _ => [] | .values vs => vs
    ⟨none, some vals,
      if vmin.isSome || vmax.isSome then some (vmin, vmax) else none⟩

/-- The percentile list ps of compare (line 103). -/
def psList : List ℚ := [50, 158 / 10, 842 / 10, 23 / 10, 977 / 10]

/-- Insertion of a value into a sorted list of rationals. -/
def insertSorted (a : ℚ) : List ℚ → List ℚ
  | [] => [a]
  | b :: bs => if a ≤ b then a :: b :: bs else b :: insertSorted a bs

/-- Insertion sort, the sorted order np.percentile works on. -/
def sortQ : List ℚ → List ℚ
  | [] => []
  | a :: as => insertSorted a (sortQ as)

/-- np.percentile with its default linear interpolation: for q in [0, 100]
and sorted values s of length n, the rank is r = q/100 * (n-1) and the
result interpolates between the entries at positions floor r and
floor r + 1. -/
def percentileQ (l : List ℚ) (q : ℚ) : ℚ :=
  let s := sortQ l
  let n := s.length
  let r : ℚ := q / 100 * ((n : ℚ) - 1)
  let k : ℤ := ⌊r⌋
  let d : ℚ := r - (k : ℚ)
  let lo := s.getD k.toNat 0
  let hi := s.getD (k.toNat + 1) lo
  lo + d * (hi - lo)

/-- compare, NaN handling of the value variable (lines 104-109), with
idx = isnan z.  With nan unset the NaN entries of z are dropped together
with their paired w entries (mask indexing builds new arrays); with
nan = some v the NaN entries of a copy of z are overwritten with v and w is
left alone.  Returns the pair (z, w) used by the binning loop. -/
def nanHandle (z w : NArr) (nan : Option ℚ) : List ℚ × NArr :=
  match nan with
  | none =>
    let pairs := (z.zip w).filter (fun p => p.1.isSome)
    (pairs.map (fun p => p.1.getD 0), pairs.map Prod.snd)
  | some v => (z.map (fun o => o.getD v), w)

/-- The mask (w > bins i) * (w < bins (i+1)) of line 111; every comparison
with NaN is false in IEEE arithmetic, so a NaN predictor entry is never
selected. -/
def binTest (lo hi : ℚ) : Option ℚ → Bool
  | none => false
  | some a => decide (lo < a) && decide (a < hi)

/-- zc = z[(w > bins i) * (w < bins (i+1))] (line 111): the z values whose
paired w lies strictly between lo and hi. -/
def selectBin (w : NArr) (z : List ℚ) (lo hi : ℚ) : List ℚ :=
  ((w.zip z).filter (fun p => binTest lo hi p.1)).map Prod.snd

/-- The index set selected by the mask of line 111 (a specification-side
view of selectBin, related to it by selectBin_eq_selIdx). -/
def selIdx (w : NArr) (lo hi : ℚ) : List ℕ :=
  (List.range w.length).filter (fun j => binTest lo hi (w.getD j none))

/-- One column of zs (lines 101, 112-118): the column starts as NaN (none)
and, depending on the count nc, its first 5, 3, 1 or 0 entries are set to
the percentiles ps[:5], ps[:3], ps[:1] of the selected values. -/
def binColumn (zc : List ℚ) : List (Option ℚ) :=
  let nc := zc.length
  if 120 ≤ nc then (psList.take 5).map (fun q => some (percentileQ zc q))
  else if 20 ≤ nc then
    ((psList.take 3).map (fun q => some (percentileQ zc q))) ++ [none, none]
  else if 8 ≤ nc then
    ((psList.take 1).map (fun q => some (percentileQ zc q))) ++
      [none, none, none, none]
  else [none, none, none, none, none]

/-- The selection of bin i inside the loop (lines 110-111), applied after
the NaN handling step. -/
def binSel (w z : NArr) (nan : Option ℚ) (bins : List ℚ) (i : ℕ) : List ℚ :=
  let p := nanHandle z w nan
  selectBin p.2 p.1 (bins.getD i 0) (bins.getD (i + 1) 0)

/-- The 5 x nbins percentile table zs of compare, stored by columns:
(binTable w z bins nan).getD i [] is the column zs[0..4, i]. -/
def binTable (w z : NArr) (bins : List ℚ) (nan : Option ℚ) :
    List (List (Option ℚ)) :=
  (List.range (bins.length - 1)).map (fun i => binColumn (binSel w z nan bins i))

/-- w0 = (bins[:-1] + bins[1:]) / 2 (line 119), the bin midpoints. -/
def binMid (bins : List ℚ) : List ℚ :=
  (bins.zip bins.tail).map (fun p => (p.1 + p.2) / 2)

/-- A returned numpy array of compare: the 1-D midpoint sequence or the
5 x nbins table (distinguishable by dimension, as in numpy). -/
inductive Arr where
  | one : List ℚ → Arr
  | two : List (List (Option ℚ)) → Arr
deriving DecidableEq

/-- Which fill routine lines 128 and 131 select. -/
inductive FillDir where
  | between
  | betweenx
deriving DecidableEq

/-- Row k of the column-stored table. -/
def rowOf (zs : List (List (Option ℚ))) (k : ℕ) : List (Option ℚ) :=
  zs.map (fun col => col.getD k none)

/-- Lines 126-131: the plotted abscissae xs, ordinates ys and the fill
routine.  With xbins present the five series are plotted over w0 and filled
with fill_between; otherwise the axes are swapped and fill_betweenx is
used. -/
def seriesFor (xbinsPresent : Bool) (w0 : List ℚ)
    (zs : List (List (Option ℚ))) : List NArr × List NArr × FillDir :=
  let w0s := w0.map some
  let rows := [rowOf zs 0, rowOf zs 1, rowOf zs 2, rowOf zs 3, rowOf zs 4]
  if xbinsPresent then ([w0s, w0s, w0s, w0s, w0s], rows, FillDir.between)
  else (rows, [w0s, w0s, w0s, w0s, w0s], FillDir.betweenx)

/-- The observable outcome of a call to compare: the returned pair of line
163, and the plotted series and fill direction of lines 126-131. -/
structure CompareVis where
  ret : Arr × Arr
  xs : List NArr
  ys : List NArr
  dir : FillDir
deriving DecidableEq

/-- compare, data and return model (lines 86-131 and 163).  With xbins
supplied (checked first, lines 92-93) x is the predictor; else with ybins
supplied y is (lines 94-95); else line 97 evaluates the bare name linspace,
which the module never defines or imports (it only has import numpy as np
and import matplotlib.pyplot as plt), so the call raises a NameError.  The
returned pair of line 163 is always (w0, zs). -/
def compareFull (x y : NArr) (xbins ybins : Option (List ℚ))
    (nan : Option ℚ) : Except String CompareVis :=
  match xbins, ybins with
  | some bins, _ =>
    let w0 := binMid bins
    let zs := binTable x y bins nan
    let t := seriesFor true w0 zs
    .ok ⟨(Arr.one w0, Arr.two zs), t.1, t.2.1, t.2.2⟩
  | none, some bins =>
    let w0 := binMid bins
    let zs := binTable y x bins nan
    let t := seriesFor false w0 zs
    .ok ⟨(Arr.one w0, Arr.two zs), t.1, t.2.1, t.2.2⟩
  | none, none => .error "NameError: name linspace is not defined"

/-- The default line styles of line 134. -/
def defaultLs : List String := ["k-", "b--", "g:"]

/-- ls = ls if ls else default (line 134): Python truthiness, so both None
and an empty list fall back to the default list. -/
def lsResolve : Option (List String) → List String
  | none => defaultLs
  | some l => if l.isEmpty then defaultLs else l

/-- The value bound to ls after the line branch (lines 133-139): the
fallback assignment of line 134 runs only when line is true. -/
def lsAfterLine (ln : Bool) (ls : Option (List String)) : Option (List String) :=
  if ln then some (lsResolve ls) else ls

/-- The fill branch (lines 142-144) subscripts ls[1][0] and ls[2][0] for the
two fill colors; when ls is still None that is a TypeError. -/
def fillStep (fill : Bool) (ls : Option (List String)) :
    Except String (Option (String × String)) :=
  if fill then
    match ls with
    | none => .error "TypeError: NoneType object is not subscriptable"
    | some l => .ok (some ((l.getD 1 "").take 1, (l.getD 2 "").take 1))
  else .ok none

/-- Lines 133-144 chained: style resolution in the line branch, then the
fill branch. -/
def lineFill (ln fill : Bool) (ls : Option (List String)) :
    Except String (Option (String × String)) :=
  fillStep fill (lsAfterLine ln ls)

/-- Modelled from the spec: np.linspace(a, b, n), the n evenly spaced values
from a to b that line 97 intends for the default bins but cannot produce
(the bare name linspace is unbound in the module). -/
def linspaceQ (a b : ℚ) (n : ℕ) : List ℚ :=
  (List.range n).map (fun i => a + (b - a) * i / ((n : ℚ) - 1))

/-- Modelled from the spec: np.nanmin, the minimum ignoring NaN entries
(an all-NaN input is an error in numpy; 0 here, never used). -/
def nanminQ (x : NArr) : ℚ :=
  match x.filterMap id with
  | [] => 0
  | a :: as => as.foldl min a

/-- Modelled from the spec: np.nanmax, the maximum ignoring NaN entries. -/
def nanmaxQ (x : NArr) : ℚ :=
  match x.filterMap id with
  | [] => 0
  | a :: as => as.foldl max a

/-- Modelled from the spec: the default bin edges line 97 intends,
linspace(nanmin x, nanmax x, 11). -/
def defaultBins (x : NArr) : List ℚ :=
  linspaceQ (nanminQ x) (nanmaxQ x) 11

/-- A heap of numpy arrays, making the aliasing of lines 104-109 explicit:
a Python variable holds a reference (an index) into the store. -/
abbrev Store := List NArr

/-- Dereference an array. -/
def readA (st : Store) (r : ℕ) : NArr := st.getD r []

/-- Allocate a fresh array (mask indexing, .copy() and .astype all build new
arrays). -/
def allocA (st : Store) (a : NArr) : Store × ℕ := (st ++ [a], st.length)

/-- z[idx] = v: overwrite the entries of a under the boolean mask idx. -/
def maskSet (a : NArr) (idx : List Bool) (v : ℚ) : NArr :=
  (a.zip idx).map (fun p => if p.2 then some v else p.1)

/-- Lines 104-109 with the store explicit.  zr and wr are the references
held by the local variables z and w, which alias the arrays of the caller.
With nan unset, z and w are rebound to freshly allocated filtered arrays;
with nan = some v, z is rebound to a fresh copy (z.copy().astype of line
108) and the in-place write of line 109 lands in that copy only. -/
def nanHandleStore (st : Store) (zr wr : ℕ) (nan : Option ℚ) :
    Store × ℕ × ℕ :=
  let z := readA st zr
  let w := readA st wr
  let idx := z.map Option.isNone
  match nan with
  | none =>
    let pairs := (z.zip w).filter (fun p => p.1.isSome)
    let s1 := allocA st (pairs.map Prod.fst)
    let s2 := allocA s1.1 (pairs.map Prod.snd)
    (s2.1, s1.2, s2.2)
  | some v =>
    let s1 := allocA st z
    let st2 := s1.1.set s1.2 (maskSet (readA s1.1 s1.2) idx v)
    (st2, s1.2, wr)

/-!
Theorems settling the claims, in claim order.
-/

/-- C9: mid maps a numeric sequence of length n ≥ 2 to the sequence of
length n - 1 whose element i is the arithmetic mean of input elements i and
i + 1; in particular mid [a, b, c] = [(a+b)/2, (b+c)/2]. -/
theorem mid_spec (x : List ℚ) (hn : 2 ≤ x.length) :
    (mid x).length = x.length - 1 ∧
    (∀ i, i < x.length - 1 →
      (mid x).getD i 0 = (x.getD i 0 + x.getD (i + 1) 0) / 2) ∧
    (∀ a b c : ℚ, mid [a, b, c] = [(a + b) / 2, (b + c) / 2]) := by
  refine ⟨?_, ?_, ?_⟩
  · simp [mid]
  · intro i hi
    have h1 : i < (mid x).length := by simp [mid]; omega
    have h2 : i < x.length := by omega
    have h3 : i + 1 < x.length := by omega
    have h4 : i < x.tail.length := by simp [List.length_tail]; omega
    rw [List.getD_eq_getElem _ _ h1, List.getD_eq_getElem _ _ h2,
      List.getD_eq_getElem _ _ h3]
    simp [mid, List.getElem_zip, List.getElem_tail]
    ring
  · intro a b c
    simp [mid, List.zip]
    constructor <;> ring

/-- C9 witness: mid at the concrete sequence [1, 2, 3]. -/
theorem mid_spec_witness :
    2 ≤ ([1, 2, 3] : List ℚ).length ∧ (mid [1, 2, 3]).length = 2 ∧
    (mid [1, 2, 3]).getD 0 0 = 3 / 2 := by
  have h := mid_spec [1, 2, 3] (by decide)
  refine ⟨by decide, by simpa using h.1, ?_⟩
  have h2 := h.2.1 0 (by decide)
  rw [h2]
  decide

/-- C2 counterexample: with fill requested, line disabled and ls not
supplied, the fill branch subscripts None and raises a TypeError; the call
does not fall back to the default style list. -/
theorem fill_without_line_crashes :
    lineFill false true none =
      Except.error "TypeError: NoneType object is not subscriptable" := rfl

/-- C2 amended: the fallback ls assignment runs only inside the line branch,
so fill with line=False succeeds only when ls was supplied; with line=True
and ls unset the fill colors come from the default styles. -/
theorem fill_fallback_needs_line :
    lineFill true true none = Except.ok (some ("b", "g")) ∧
    (∀ l : List String, lineFill false true (some l) =
      Except.ok (some ((l.getD 1 "").take 1, (l.getD 2 "").take 1))) ∧
    lineFill false false none = Except.ok none :=
  ⟨rfl, fun _ => rfl, rfl⟩

/-- C3 (code bug): with neither xbins nor ybins supplied, line 97 evaluates
the unbound name linspace and compare raises a NameError instead of building
the ten equal-width bins; the spec-modelled default bins would be the eleven
evenly spaced edges from nanmin x to nanmax x. -/
theorem compare_default_bins_crash :
    compareFull [some 0, some 1, some 2] [some 3, some 4, some 5]
        none none none =
      Except.error "NameError: name linspace is not defined" ∧
    defaultBins [some 0, some 1, some 2] =
      [0, 1 / 5, 2 / 5, 3 / 5, 4 / 5, 1, 6 / 5, 7 / 5, 8 / 5, 9 / 5, 2] :=
  ⟨rfl, by decide⟩

/-- C10: the NaN-handling step of compare leaves the arrays of the caller
unchanged in the store, whichever variable plays the value role and whether
or not a fill value is supplied: the boolean-mask write of line 109 lands in
the fresh copy made on line 108, and the filtering of line 106 allocates new
arrays. -/
theorem compare_no_mutation (x y : NArr) (nan : Option ℚ) :
    (readA (nanHandleStore [x, y] 1 0 nan).1 0 = x ∧
     readA (nanHandleStore [x, y] 1 0 nan).1 1 = y) ∧
    (readA (nanHandleStore [x, y] 0 1 nan).1 0 = x ∧
     readA (nanHandleStore [x, y] 0 1 nan).1 1 = y) := by
  cases nan <;> exact ⟨⟨rfl, rfl⟩, rfl, rfl⟩

/-- C1 counterexample: with ybins supplied (y the predictor), the first
returned output is still the bin-midpoint sequence [5] and the second the
percentile table, not the other way around. -/
theorem compare_ybins_first_output_not_table :
    compareFull [some 1, some 2, some 3] [some 0, some 1, some 2] none
        (some [0, 10]) none =
      Except.ok ⟨(Arr.one [5], Arr.two [[none, none, none, none, none]]),
        [[none], [none], [none], [none], [none]],
        [[some 5], [some 5], [some 5], [some 5], [some 5]],
        FillDir.betweenx⟩ ∧
    Arr.one ([5] : List ℚ) ≠ Arr.two [[none, none, none, none, none]] :=
  ⟨by decide, by decide⟩

/-- C1 amended: the returned pair of compare is always (bin midpoints,
percentile table), for either choice of predictor; the orientation swap of
lines 126-131 applies only to the plotted series and the fill routine. -/
theorem compare_return_unswapped (x y : NArr) (bins : List ℚ)
    (ybins : Option (List ℚ)) (nan : Option ℚ) :
    compareFull x y (some bins) ybins nan =
      Except.ok ⟨(Arr.one (binMid bins), Arr.two (binTable x y bins nan)),
        [(binMid bins).map some, (binMid bins).map some, (binMid bins).map some,
         (binMid bins).map some, (binMid bins).map some],
        [rowOf (binTable x y bins nan) 0, rowOf (binTable x y bins nan) 1,
         rowOf (binTable x y bins nan) 2, rowOf (binTable x y bins nan) 3,
         rowOf (binTable x y bins nan) 4],
        FillDir.between⟩ ∧
    compareFull x y none (some bins) nan =
      Except.ok ⟨(Arr.one (binMid bins), Arr.two (binTable y x bins nan)),
        [rowOf (binTable y x bins nan) 0, rowOf (binTable y x bins nan) 1,
         rowOf (binTable y x bins nan) 2, rowOf (binTable y x bins nan) 3,
         rowOf (binTable y x bins nan) 4],
        [(binMid bins).map some, (binMid bins).map some, (binMid bins).map some,
         (binMid bins).map some, (binMid bins).map some],
        FillDir.betweenx⟩ :=
  ⟨rfl, rfl⟩

/-- C4: circles with a single color token attaches no value array, keeps the
uniform color and never calls set_clim; with a numeric value sequence the
attached array is exactly that sequence and the normalization limits are set
to (vmin, vmax) whenever at least one of the bounds was supplied. -/
theorem circles_color (s : String) (vs : List ℚ) (vmin vmax : Option ℚ) :
    ((makeCollection (ColorArg.token s) vmin vmax).array = none ∧
     (makeCollection (ColorArg.token s) vmin vmax).color = some s ∧
     (makeCollection (ColorArg.token s) vmin vmax).clim = none) ∧
    ((makeCollection (ColorArg.values vs) vmin vmax).array = some vs ∧
     (makeCollection (ColorArg.values vs) vmin vmax).color = none ∧
     (vmin.isSome = true ∨ vmax.isSome = true →
       (makeCollection (ColorArg.values vs) vmin vmax).clim =
         some (vmin, vmax))) := by
  refine ⟨⟨rfl, rfl, rfl⟩, rfl, rfl, fun h => ?_⟩
  rcases h with h | h <;> simp [makeCollection, colorOf, h]

/-- C4 witness: a numeric color sequence with only vmin supplied. -/
theorem circles_color_witness :
    ((some (0 : ℚ)).isSome = true ∨ (none : Option ℚ).isSome = true) ∧
    (makeCollection (ColorArg.values [1, 2]) (some 0) none).clim =
      some (some 0, none) :=
  ⟨Or.inl rfl, (circles_color "r" [1, 2] (some 0) none).2.2.2 (Or.inl rfl)⟩

/-- C8: circles makes one circle at (x, y) with radius s when x is scalar;
one circle per point with the common radius s when s is scalar; and one
circle per index with center (x i, y i) and radius s i when all three are
sequences. -/
theorem circles_point_count (a b r : ℚ) (xs ys ss : List ℚ)
    (hxy : xs.length = ys.length) (hys : ys.length = ss.length) :
    circlesPatches (SV.scalar a) (SV.scalar b) (SV.scalar r) =
      some [⟨a, b, r⟩] ∧
    (∃ l, circlesPatches (SV.vec xs) (SV.vec ys) (SV.scalar r) = some l ∧
      l.length = xs.length ∧
      ∀ i, i < xs.length →
        l.getD i ⟨0, 0, 0⟩ = ⟨xs.getD i 0, ys.getD i 0, r⟩) ∧
    (∃ l, circlesPatches (SV.vec xs) (SV.vec ys) (SV.vec ss) = some l ∧
      l.length = xs.length ∧
      ∀ i, i < xs.length →
        l.getD i ⟨0, 0, 0⟩ = ⟨xs.getD i 0, ys.getD i 0, ss.getD i 0⟩) := by
  refine ⟨rfl, ⟨_, rfl, ?_, ?_⟩, ⟨_, rfl, ?_, ?_⟩⟩
  · simp [List.length_zip]
    omega
  · intro i hi
    have h1 : i < ((xs.zip ys).map
        (fun p => (⟨p.1, p.2, r⟩ : Circ))).length := by
      simp [List.length_zip]; omega
    rw [List.getD_eq_getElem _ _ h1,
      List.getD_eq_getElem _ _ (show i < xs.length by omega),
      List.getD_eq_getElem _ _ (show i < ys.length by omega)]
    simp [List.getElem_zip]
  · simp [List.length_zip]
    omega
  · intro i hi
    have h1 : i < ((xs.zip (ys.zip ss)).map
        (fun p => (⟨p.1, p.2.1, p.2.2⟩ : Circ))).length := by
      simp [List.length_zip]; omega
    rw [List.getD_eq_getElem _ _ h1,
      List.getD_eq_getElem _ _ (show i < xs.length by omega),
      List.getD_eq_getElem _ _ (show i < ys.length by omega),
      List.getD_eq_getElem _ _ (show i < ss.length by omega)]
    simp [List.getElem_zip]

/-- C8 witness: the scalar case at a concrete center and radius, with
concrete equal-length vectors discharging the length hypotheses. -/
theorem circles_point_count_witness :
    ([1, 2] : List ℚ).length = ([3, 4] : List ℚ).length ∧
    ([3, 4] : List ℚ).length = ([5, 6] : List ℚ).length ∧
    circlesPatches (SV.scalar 1) (SV.scalar 2) (SV.scalar 3) =
      some [⟨1, 2, 3⟩] :=
  ⟨rfl, rfl, (circles_point_count 1 2 3 [1, 2] [3, 4] [5, 6] rfl rfl).1⟩

/-- C5: for bin i of compare, with nc the number of selected values: nc ≥ 120
writes all five percentiles (50, 15.8, 84.2, 2.3, 97.7) into the column;
20 ≤ nc < 120 writes only the first three and leaves the outer two NaN;
8 ≤ nc < 20 writes only the median; nc < 8 leaves the whole column NaN. -/
theorem compare_thresholds (w z : NArr) (nan : Option ℚ) (bins : List ℚ)
    (i : ℕ) (h : i + 1 < bins.length) :
    (binTable w z bins nan).getD i [] = binColumn (binSel w z nan bins i) ∧
    (120 ≤ (binSel w z nan bins i).length →
      binColumn (binSel w z nan bins i) =
        [some (percentileQ (binSel w z nan bins i) 50),
         some (percentileQ (binSel w z nan bins i) (158 / 10)),
         some (percentileQ (binSel w z nan bins i) (842 / 10)),
         some (percentileQ (binSel w z nan bins i) (23 / 10)),
         some (percentileQ (binSel w z nan bins i) (977 / 10))]) ∧
    (20 ≤ (binSel w z nan bins i).length ∧
        (binSel w z nan bins i).length < 120 →
      binColumn (binSel w z nan bins i) =
        [some (percentileQ (binSel w z nan bins i) 50),
         some (percentileQ (binSel w z nan bins i) (158 / 10)),
         some (percentileQ (binSel w z nan bins i) (842 / 10)),
         none, none]) ∧
    (8 ≤ (binSel w z nan bins i).length ∧
        (binSel w z nan bins i).length < 20 →
      binColumn (binSel w z nan bins i) =
        [some (percentileQ (binSel w z nan bins i) 50),
         none, none, none, none]) ∧
    ((binSel w z nan bins i).length < 8 →
      binColumn (binSel w z nan bins i) = [none, none, none, none, none]) := by
  refine ⟨?_, ?_, ?_, ?_, ?_⟩
  · have hlen : i < ((List.range (bins.length - 1)).map
        (fun i => binColumn (binSel w z nan bins i))).length := by
      simp; omega
    rw [binTable, List.getD_eq_getElem _ _ hlen]
    simp
  · intro hc
    simp only [binColumn]
    rw [if_pos hc]
    simp [psList]
  · intro hc
    simp only [binColumn]
    rw [if_neg (by omega), if_pos hc.1]
    simp [psList]
  · intro hc
    simp only [binColumn]
    rw [if_neg (by omega), if_neg (by omega), if_pos hc.1]
    simp [psList]
  · intro hc
    simp only [binColumn]
    rw [if_neg (by omega), if_neg (by omega), if_neg (by omega)]

/-- C5 witness: a concrete call with exactly 8 values falling in the only
bin; just the median is written and equals 9/2. -/
theorem compare_thresholds_witness :
    0 + 1 < ([0, 10] : List ℚ).length ∧
    (binTable (List.replicate 8 (some 5))
        [some 1, some 2, some 3, some 4, some 5, some 6, some 7, some 8]
        [0, 10] none).getD 0 [] =
      [some (9 / 2), none, none, none, none] := by
  refine ⟨by decide, ?_⟩
  have h := compare_thresholds (List.replicate 8 (some 5))
    [some 1, some 2, some 3, some 4, some 5, some 6, some 7, some 8]
    none [0, 10] 0 (by decide)
  rw [h.1, h.2.2.2.1 (by decide)]
  decide

/-- An index j is selected by the mask iff it is in range and its predictor
entry passes the strict interval test. -/
theorem selIdx_mem (w : NArr) (lo hi : ℚ) (j : ℕ) :
    j ∈ selIdx w lo hi ↔
      j < w.length ∧ binTest lo hi (w.getD j none) = true := by
  simp [selIdx, List.mem_filter, List.mem_range]

/-- The value selection of line 111 is exactly the value entries at the
selected indices, in order. -/
theorem selectBin_eq_selIdx (w : NArr) (z : List ℚ)
    (hlen : w.length = z.length) (lo hi : ℚ) :
    selectBin w z lo hi = (selIdx w lo hi).map (fun j => z.getD j 0) := by
  induction w generalizing z with
  | nil => simp [selectBin, selIdx]
  | cons a w ih =>
    cases z with
    | nil => simp at hlen
    | cons b z =>
      have h : w.length = z.length := by simpa using hlen
      have ihz := ih z h
      simp only [selectBin, selIdx] at ihz ⊢
      by_cases hab : binTest lo hi a = true
      · simp [List.filter_cons, hab, List.range_succ_eq_map, List.filter_map,
          Function.comp_def, List.map_map, ihz]
      · simp [List.filter_cons, hab, List.range_succ_eq_map, List.filter_map,
          Function.comp_def, List.map_map, ihz]

/-- C6: a value is counted in bin i exactly when its paired predictor value
lies strictly inside the open interval (bins i, bins (i+1)); a predictor
value equal to the shared edge of two adjacent bins is excluded from both.
The first conjunct identifies the selected values of line 111 with the
selected index set. -/
theorem bin_strict_open (w : NArr) (z : List ℚ) (bins : List ℚ) (i j : ℕ)
    (a : ℚ) (hlen : w.length = z.length) (hj : j < w.length)
    (ha : w.getD j none = some a) :
    selectBin w z (bins.getD i 0) (bins.getD (i + 1) 0) =
      (selIdx w (bins.getD i 0) (bins.getD (i + 1) 0)).map
        (fun j => z.getD j 0) ∧
    (j ∈ selIdx w (bins.getD i 0) (bins.getD (i + 1) 0) ↔
      bins.getD i 0 < a ∧ a < bins.getD (i + 1) 0) ∧
    (a = bins.getD (i + 1) 0 →
      j ∉ selIdx w (bins.getD i 0) (bins.getD (i + 1) 0) ∧
      j ∉ selIdx w (bins.getD (i + 1) 0) (bins.getD (i + 2) 0)) := by
  have ha2 : w[j] = some a := by
    rwa [List.getD_eq_getElem _ _ hj] at ha
  refine ⟨selectBin_eq_selIdx w z hlen _ _, ?_, ?_⟩
  · rw [selIdx_mem, List.getD_eq_getElem _ _ hj, ha2]
    simp [binTest, hj]
  · intro hedge
    constructor
    · rw [selIdx_mem, List.getD_eq_getElem _ _ hj, ha2, ← hedge]
      simp [binTest]
    · rw [selIdx_mem, List.getD_eq_getElem _ _ hj, ha2, ← hedge]
      simp [binTest]

/-- C6 witness: a predictor value sitting exactly on the shared edge 5 of
the bins [0, 5] and [5, 10] is selected into neither of them. -/
theorem bin_strict_open_witness :
    (([some 5] : NArr).length = ([3] : List ℚ).length ∧
      0 < ([some 5] : NArr).length ∧
      ([some 5] : NArr).getD 0 none = some 5 ∧
      (5 : ℚ) = ([0, 5, 10] : List ℚ).getD 1 0) ∧
    (0 ∉ selIdx [some 5] (([0, 5, 10] : List ℚ).getD 0 0)
        (([0, 5, 10] : List ℚ).getD 1 0) ∧
     0 ∉ selIdx [some 5] (([0, 5, 10] : List ℚ).getD 1 0)
        (([0, 5, 10] : List ℚ).getD 2 0)) := by
  refine ⟨⟨rfl, by decide, by decide, by decide⟩, ?_⟩
  exact (bin_strict_open [some 5] [3] [0, 5, 10] 0 0 5 rfl (by decide)
    (by decide)).2.2 (by decide)

/-- C7: with nan unset, NaN entries of the value variable and their paired
predictor entries are dropped, so a bin counts exactly the pairs with a
non-NaN value and a predictor strictly inside the bin; with nan = some v the
NaN entries are replaced by v (in a copy) and every entry participates in
binning at its original predictor value. -/
theorem nan_policy (z w : NArr) (lo hi v : ℚ) (hlen : z.length = w.length) :
    (selectBin (nanHandle z w none).2 (nanHandle z w none).1 lo hi).length =
      (z.zip w).countP (fun p => p.1.isSome && binTest lo hi p.2) ∧
    (nanHandle z w (some v)).2 = w ∧
    (nanHandle z w (some v)).1 = z.map (fun o => o.getD v) ∧
    selectBin (nanHandle z w (some v)).2 (nanHandle z w (some v)).1 lo hi =
      (selIdx w lo hi).map (fun j => (z.getD j none).getD v) := by
  refine ⟨?_, rfl, rfl, ?_⟩
  · simp only [nanHandle, selectBin, List.zip_map', List.length_map]
    rw [← List.countP_eq_length_filter, List.countP_map, List.countP_filter]
    simp [Function.comp_def, Bool.and_comm]
  · have hl : w.length = (z.map (fun o => o.getD v)).length := by
      simpa using hlen.symm
    rw [show (nanHandle z w (some v)).2 = w from rfl,
      show (nanHandle z w (some v)).1 = z.map (fun o => o.getD v) from rfl,
      selectBin_eq_selIdx w _ hl lo hi]
    apply List.map_congr_left
    intro j hjmem
    have hj : j < w.length := ((selIdx_mem w lo hi j).1 hjmem).1
    have hjz : j < z.length := by omega
    rw [List.getD_eq_getElem _ _ (by simpa using hjz), List.getElem_map,
      List.getD_eq_getElem _ _ hjz]

/-- C7 witness: one NaN value entry among three; the non-NaN count in the
bin (0, 10) matches the selection length after dropping. -/
theorem nan_policy_witness :
    ([some 1, none, some 3] : NArr).length =
      ([some 1, some 2, some 3] : NArr).length ∧
    (selectBin (nanHandle [some 1, none, some 3]
          [some 1, some 2, some 3] none).2
        (nanHandle [some 1, none, some 3]
          [some 1, some 2, some 3] none).1 0 10).length =
      (([some 1, none, some 3] : NArr).zip
          ([some 1, some 2, some 3] : NArr)).countP
        (fun p => p.1.isSome && binTest 0 10 p.2) := by
  refine ⟨rfl, ?_⟩
  exact (nan_policy [some 1, none, some 3] [some 1, some 2, some 3]
    0 10 7 rfl).1

end Plot
